import Mathlib

/-!
Verification of the django-orghierarchy form and admin layer.

The development shallowly embeds `django_orghierarchy/forms.py` and the
admin behaviour exercised by `tests/test_admin.py`.  The ORM is modelled as
a list of organization records; querysets become list filters.  The
`Organization` model class and the `OrganizationAdmin` class are not among
the sources, so they are modelled from the specification (each such
definition carries a doc comment starting with "Modelled from the spec:").
-/

namespace OrgHierarchy

/-- Modelled from the spec: the internal type of an organization is one of
NORMAL or AFFILIATED (`Organization.NORMAL` / `Organization.AFFILIATED`
in `models.py`, which is not among the sources). -/
inductive InternalType
  | normal
  | affiliated
deriving DecidableEq, Repr

/-- Modelled from the spec: the `Organization` model (`models.py` is not
among the sources).  Spec section 3 lists identifier, internal type in
NORMAL/AFFILIATED, a nullable self-referential parent, a nullable
self-referential replaced-by reference and an admin-user set; the
remaining attributes (name, dates, data source, classification, regular
users, audit users) play no role in the modelled operations and are
omitted. -/
structure Organization where
  id : Nat
  internal_type : InternalType
  parent : Option Nat
  replaced_by : Option Nat
  admin_users : List Nat
deriving DecidableEq, Repr

/-- The database state: the set of `Organization` rows, as a list. -/
structure Database where
  orgs : List Organization
deriving DecidableEq, Repr

/-- One expansion step of the descendant computation: keep `acc` and add
every organization whose parent is already in `acc`. -/
def descStep (db : Database) (acc : List Nat) : List Nat :=
  acc ++ (db.orgs.filter (fun o =>
    match o.parent with
    | some p => acc.contains p
    | none => false)).map (fun o => o.id)

/-- Iterate `descStep` a given number of times. -/
def descIter (db : Database) : Nat → List Nat → List Nat
  | 0, acc => acc
  | n + 1, acc => descIter db n (descStep db acc)

/-- Modelled from the spec: the id list produced by
`instance.get_descendants(include_self=True).values_list('id', flat=True)`
(the tree machinery lives in `models.py`, which is not among the sources;
the spec describes "the organization's own descendant subtree (including
itself)").  Starting from the instance's own id, children are added level
by level; `db.orgs.length` steps saturate any acyclic hierarchy stored in
`db`. -/
def get_descendants_ids (db : Database) (i : Nat) : List Nat :=
  descIter db db.orgs.length [i]

/-- The queryset installed on the `replaced_by` field by
`OrganizationForm.__init__`: organizations whose own `replaced_by` is null
(`Organization.objects.filter(replaced_by__isnull=True)`), further
excluding the edited instance itself when the form is bound to an existing
instance (`qs.exclude(id=self.instance.id)`). -/
def replacedByQueryset (db : Database) (instance_id : Option Nat) : List Organization :=
  let qs := db.orgs.filter (fun o => decide (o.replaced_by = none))
  match instance_id with
  | none => qs
  | some i => qs.filter (fun o => decide (o.id ≠ i))

/-- The queryset installed on the `parent` field by
`OrganizationForm.__init__` when editing an existing instance:
`Organization.objects.exclude(id__in=desc_ids)` with `desc_ids` the ids of
the instance's descendants including itself. -/
def parentQuerysetForEdit (db : Database) (i : Nat) : List Organization :=
  db.orgs.filter (fun o => decide (o.id ∉ get_descendants_ids db i))

/-- The field names of `OrganizationForm.Meta.fields` in `forms.py`. -/
inductive FieldName
  | data_source
  | origin_id
  | classification
  | name
  | founding_date
  | dissolution_date
  | internal_type
  | parent
  | admin_users
  | regular_users
  | replaced_by
deriving DecidableEq, Repr

/-- The dynamic queryset assignments of `OrganizationForm.__init__`,
acting on the form's field map (a field name is present exactly when it is
mapped to `some` queryset).  First, if `replaced_by` is among the fields,
its queryset becomes `replacedByQueryset`; then, if `parent` is among the
fields and the instance has an id, its queryset becomes
`parentQuerysetForEdit`.  Fields may be dynamically excluded (for example
set to readonly in the admin), in which case the corresponding assignment
is skipped. -/
def organizationFormInit (db : Database) (instance_id : Option Nat)
    (fields : FieldName → Option (List Organization)) :
    FieldName → Option (List Organization) :=
  let f1 : FieldName → Option (List Organization) :=
    if (fields FieldName.replaced_by).isSome then
      fun k =>
        if k = FieldName.replaced_by then some (replacedByQueryset db instance_id)
        else fields k
    else fields
  match instance_id with
  | some i =>
    if (f1 FieldName.parent).isSome then
      fun k =>
        if k = FieldName.parent then some (parentQuerysetForEdit db i)
        else f1 k
    else f1
  | none => f1

/-- The data `OrganizationForm.clean` inspects: the cleaned values of
`internal_type` and `parent` (each may be absent, as
`cleaned_data.get` returns `None` for a missing key). -/
structure CleanedData where
  internal_type : Option InternalType
  parent : Option Nat
deriving DecidableEq, Repr

/-- `OrganizationForm.clean`: raises a `ValidationError` when the cleaned
internal type is AFFILIATED and the cleaned parent is `None`; otherwise
returns the cleaned data. -/
def clean (cd : CleanedData) : Except String CleanedData :=
  if cd.internal_type = some InternalType.affiliated ∧ cd.parent = none then
    Except.error "Affiliated organization must have a parent organization"
  else
    Except.ok cd

/-- A value stored in a form's `initial` or submitted-data mapping: either
an internal type or some other opaque payload. -/
inductive FormValue
  | itype (t : InternalType)
  | text (s : String)
deriving DecidableEq, Repr

/-- The state of a `SubOrganizationForm` (or `AffiliatedOrganizationForm`)
after `__init__`: the class's `default_internal_type`, the `initial`
mapping and the submitted data. -/
structure SubOrgForm where
  default_internal_type : InternalType
  initial : FieldName → Option FormValue
  data : FieldName → Option FormValue

/-- `SubOrganizationForm.__init__`: if no `initial` mapping was supplied,
an empty one is used; in either case `initial['internal_type']` is
overwritten with the class's `default_internal_type` before the base
constructor runs, so the form's `initial` holds the default under
`internal_type` whatever the caller supplied. -/
def subOrgFormInit (default : InternalType)
    (kwargs_initial : Option (FieldName → Option FormValue))
    (data : FieldName → Option FormValue) : SubOrgForm :=
  let init0 := kwargs_initial.getD (fun _ => none)
  { default_internal_type := default
    initial := fun k =>
      if k = FieldName.internal_type then some (FormValue.itype default) else init0 k
    data := data }

/-- `SubOrganizationForm` construction (`default_internal_type = NORMAL`). -/
def subOrganizationForm : Option (FieldName → Option FormValue) →
    (FieldName → Option FormValue) → SubOrgForm :=
  subOrgFormInit InternalType.normal

/-- `AffiliatedOrganizationForm` construction
(`default_internal_type = AFFILIATED`). -/
def affiliatedOrganizationForm : Option (FieldName → Option FormValue) →
    (FieldName → Option FormValue) → SubOrgForm :=
  subOrgFormInit InternalType.affiliated

/-- `SubOrganizationForm.clean_internal_type`: returns
`self.initial['internal_type']`, ignoring the submitted data entirely. -/
def clean_internal_type (f : SubOrgForm) : Option FormValue :=
  f.initial FieldName.internal_type

/-- Modelled from the spec: the acting staff user of an admin request
(`admin.py` and the framework user model are not among the sources).
A user has an identifier, a superuser flag, and the set of framework
permission codenames granted to them. -/
structure AdminUser where
  id : Nat
  is_superuser : Bool
  perms : List String
deriving DecidableEq, Repr

/-- Modelled from the spec: the framework's `user.has_perm` check — a
superuser holds every permission, any other user holds exactly the
permissions granted to them. -/
def hasPerm (user : AdminUser) (perm : String) : Bool :=
  user.is_superuser || decide (perm ∈ user.perms)

/-- Modelled from the spec: `OrganizationAdmin.get_queryset` (`admin.py`
is not among the sources).  Spec section 4.3: "superusers see all
organizations; other staff see only organizations where they appear in
the admin-user set". -/
def get_queryset (db : Database) (user : AdminUser) : List Organization :=
  if user.is_superuser then db.orgs
  else db.orgs.filter (fun o => decide (user.id ∈ o.admin_users))

/-- Modelled from the spec: `OrganizationAdmin.has_change_permission`
(`admin.py` is not among the sources).  Spec section 4.3: "granted to
superusers, or to staff holding a distinct 'change affiliated
organization' framework permission (for organizations that are
affiliated) — delegated per-object"; with no object in context the
permission alone suffices, as `tests/test_admin.py`
(`test_has_change_permission`) requires. -/
def has_change_permission (user : AdminUser) (obj : Option Organization) : Bool :=
  user.is_superuser ||
    (hasPerm user "change_affiliated_organization" &&
      match obj with
      | none => true
      | some o => decide (o.internal_type = InternalType.affiliated))

/-- Modelled from the spec: `OrganizationAdmin.readonly_fields`
(`admin.py` is not among the sources).  Spec sections 3 and 4.3 make
`created_by` and `last_modified_by` system-maintained on every save, so
they form the admin's default read-only set, as `tests/test_admin.py`
(`test_get_readonly_fields`) distinguishes it from the form's base
fields. -/
def organizationAdminReadonlyFields : List String :=
  ["created_by", "last_modified_by"]

/-- The field names of `OrganizationForm.base_fields`: exactly the
`Meta.fields` tuple declared in `forms.py`. -/
def organizationFormBaseFields : List String :=
  ["data_source", "origin_id", "classification",
   "name", "founding_date", "dissolution_date",
   "internal_type", "parent", "admin_users",
   "regular_users", "replaced_by"]

/-- Modelled from the spec: `OrganizationAdmin.get_readonly_fields`
(`admin.py` is not among the sources); behaviour fixed by
`tests/test_admin.py` (`test_get_readonly_fields`): for a user without
the model-wide `change_organization` permission, a call with an existing
object returns all of the form's base fields, while a call with no
object returns the admin's default read-only fields; a user holding the
permission gets the default read-only fields in both cases. -/
def get_readonly_fields (user : AdminUser) (obj : Option Organization) : List String :=
  if obj.isSome && !(hasPerm user "change_organization") then
    organizationFormBaseFields
  else
    organizationAdminReadonlyFields

/-- The save-tracking attributes of an organization record:
`created_by` and `last_modified_by` user references, both null before
the first save. -/
structure TrackedOrganization where
  created_by : Option Nat
  last_modified_by : Option Nat
deriving DecidableEq, Repr

/-- Modelled from the spec: `OrganizationAdmin.save_model` (`admin.py`
is not among the sources).  Spec section 4.3: "on create, records the
acting user as creator; on every save, records the acting user as last
modifier" — `created_by` is set only when not yet set, and
`last_modified_by` is set to the acting user on every save. -/
def save_model (user_id : Nat) (obj : TrackedOrganization) : TrackedOrganization :=
  { created_by := some (obj.created_by.getD user_id)
    last_modified_by := some user_id }

/-- Anything in the accumulator stays in every iterate of `descStep`. -/
theorem mem_descIter (db : Database) :
    ∀ (n : Nat) (acc : List Nat) (x : Nat), x ∈ acc → x ∈ descIter db n acc := by
  intro n
  induction n with
  | zero => intro acc x hx; simpa [descIter] using hx
  | succ n ih =>
    intro acc x hx
    exact ih (descStep db acc) x (List.mem_append_left _ hx)

/-- An organization's own id is among its descendant ids
(`include_self=True`). -/
theorem self_mem_get_descendants_ids (db : Database) (i : Nat) :
    i ∈ get_descendants_ids db i :=
  mem_descIter db db.orgs.length [i] i (List.mem_singleton.mpr rfl)

/-- Claim C1: when editing an existing organization (non-null id), the
`parent` field's candidate queryset equals the set of all organizations
minus the descendants of the instance including the instance itself, so
the instance can never be selected as its own parent and no descendant
can be selected as its parent; for a new organization (no id) the
`parent` queryset is left unrestricted. -/
theorem organization_form_parent_queryset_spec (db : Database) (i : Nat) :
    (∀ o : Organization,
       o ∈ parentQuerysetForEdit db i ↔
         o ∈ db.orgs ∧ o.id ∉ get_descendants_ids db i)
    ∧ (∀ o : Organization, o.id = i → o ∉ parentQuerysetForEdit db i)
    ∧ (∀ o : Organization,
        o.id ∈ get_descendants_ids db i → o ∉ parentQuerysetForEdit db i)
    ∧ (∀ fields : FieldName → Option (List Organization),
        (fields FieldName.parent).isSome = true →
          organizationFormInit db (some i) fields FieldName.parent
            = some (parentQuerysetForEdit db i))
    ∧ (∀ fields : FieldName → Option (List Organization),
        organizationFormInit db none fields FieldName.parent
          = fields FieldName.parent) := by
  refine ⟨?_, ?_, ?_, ?_, ?_⟩
  · intro o
    simp [parentQuerysetForEdit, List.mem_filter]
  · intro o h hmem
    rcases List.mem_filter.mp hmem with ⟨_, hp⟩
    rw [decide_eq_true_eq] at hp
    exact hp (h ▸ self_mem_get_descendants_ids db i)
  · intro o h hmem
    rcases List.mem_filter.mp hmem with ⟨_, hp⟩
    rw [decide_eq_true_eq] at hp
    exact hp h
  · intro fields h
    unfold organizationFormInit
    by_cases hr : (fields FieldName.replaced_by).isSome <;> simp [hr, h]
  · intro fields
    unfold organizationFormInit
    by_cases hr : (fields FieldName.replaced_by).isSome <;> simp [hr]

theorem organization_form_parent_queryset_spec_witness :
    (⟨1, InternalType.normal, none, none, []⟩ : Organization) ∉
      parentQuerysetForEdit ⟨[⟨1, InternalType.normal, none, none, []⟩]⟩ 1 :=
  (organization_form_parent_queryset_spec
      ⟨[⟨1, InternalType.normal, none, none, []⟩]⟩ 1).2.1
    ⟨1, InternalType.normal, none, none, []⟩ rfl

/-- Claim C2: `OrganizationForm.clean` raises the validation error
"Affiliated organization must have a parent organization" if and only if
the cleaned internal type is AFFILIATED and the cleaned parent is
`None`; in every other case it returns the cleaned data. -/
theorem organization_form_clean_spec (cd : CleanedData) :
    (clean cd =
        Except.error "Affiliated organization must have a parent organization" ↔
      cd.internal_type = some InternalType.affiliated ∧ cd.parent = none)
    ∧ (¬ (cd.internal_type = some InternalType.affiliated ∧ cd.parent = none) →
        clean cd = Except.ok cd) := by
  constructor
  · by_cases h : cd.internal_type = some InternalType.affiliated ∧ cd.parent = none
    · simp [clean, h]
    · simp [clean, h]
  · intro h
    simp [clean, h]

theorem organization_form_clean_spec_witness :
    clean ⟨some InternalType.affiliated, none⟩ =
      Except.error "Affiliated organization must have a parent organization" :=
  (organization_form_clean_spec ⟨some InternalType.affiliated, none⟩).1.mpr ⟨rfl, rfl⟩

/-- Claim C3: the `replaced_by` field's candidate queryset contains
exactly the organizations whose own `replaced_by` is null, additionally
excluding the edited instance itself when the form is bound to an
existing instance; whenever the field is present, `__init__` installs
exactly this queryset on it. -/
theorem organization_form_replaced_by_queryset_spec (db : Database) :
    (∀ o : Organization,
       o ∈ replacedByQueryset db none ↔ o ∈ db.orgs ∧ o.replaced_by = none)
    ∧ (∀ (i : Nat) (o : Organization),
        o ∈ replacedByQueryset db (some i) ↔
          o ∈ db.orgs ∧ o.replaced_by = none ∧ o.id ≠ i)
    ∧ (∀ (instance_id : Option Nat)
        (fields : FieldName → Option (List Organization)),
        (fields FieldName.replaced_by).isSome = true →
          organizationFormInit db instance_id fields FieldName.replaced_by
            = some (replacedByQueryset db instance_id)) := by
  refine ⟨?_, ?_, ?_⟩
  · intro o
    simp [replacedByQueryset, List.mem_filter]
  · intro i o
    simp [replacedByQueryset, List.mem_filter, and_assoc]
    tauto
  · intro instance_id fields h
    unfold organizationFormInit
    cases instance_id with
    | none => simp [h]
    | some i =>
      by_cases hp : (fields FieldName.parent).isSome <;> simp [h, hp]

theorem organization_form_replaced_by_queryset_spec_witness :
    organizationFormInit ⟨[]⟩ none (fun _ => some []) FieldName.replaced_by
      = some (replacedByQueryset ⟨[]⟩ none) :=
  (organization_form_replaced_by_queryset_spec ⟨[]⟩).2.2 none (fun _ => some []) rfl

/-- Claim C4: `clean_internal_type` of `SubOrganizationForm`
(respectively `AffiliatedOrganizationForm`) returns the configured
default internal type NORMAL (respectively AFFILIATED) regardless of the
submitted form data. -/
theorem sub_org_form_clean_internal_type_default
    (kwargs_initial : Option (FieldName → Option FormValue))
    (data : FieldName → Option FormValue) :
    clean_internal_type (subOrganizationForm kwargs_initial data)
        = some (FormValue.itype InternalType.normal)
    ∧ clean_internal_type (affiliatedOrganizationForm kwargs_initial data)
        = some (FormValue.itype InternalType.affiliated) :=
  ⟨rfl, rfl⟩

/-- Claim C9: the cleaned internal type of a `SubOrganizationForm`
(respectively `AffiliatedOrganizationForm`) is independent of both the
caller-supplied `initial` mapping and the submitted data: any two
constructions agree on it. -/
theorem sub_org_form_internal_type_noninterference
    (init1 init2 : Option (FieldName → Option FormValue))
    (data1 data2 : FieldName → Option FormValue) :
    clean_internal_type (subOrganizationForm init1 data1)
        = clean_internal_type (subOrganizationForm init2 data2)
    ∧ clean_internal_type (affiliatedOrganizationForm init1 data1)
        = clean_internal_type (affiliatedOrganizationForm init2 data2) :=
  ⟨rfl, rfl⟩

/-- Claim C10: `OrganizationForm.__init__` is total with respect to
dynamically excluded fields: when `replaced_by` (respectively `parent`)
is absent from the field map, the corresponding queryset restriction is
skipped and every other field's queryset is left unchanged; fields other
than `replaced_by` and `parent` are never touched at all. -/
theorem organization_form_init_dynamic_fields_spec (db : Database)
    (instance_id : Option Nat)
    (fields : FieldName → Option (List Organization)) :
    (fields FieldName.replaced_by = none →
       ∀ k : FieldName, k ≠ FieldName.parent →
         organizationFormInit db instance_id fields k = fields k)
    ∧ (fields FieldName.parent = none →
       ∀ k : FieldName, k ≠ FieldName.replaced_by →
         organizationFormInit db instance_id fields k = fields k)
    ∧ (∀ k : FieldName, k ≠ FieldName.parent → k ≠ FieldName.replaced_by →
         organizationFormInit db instance_id fields k = fields k) := by
  refine ⟨?_, ?_, ?_⟩
  · intro h k hk
    have hr : (fields FieldName.replaced_by).isSome = false := by simp [h]
    unfold organizationFormInit
    cases instance_id with
    | none => simp [hr]
    | some i =>
      by_cases hp : (fields FieldName.parent).isSome <;> simp [hr, hp, hk]
  · intro h k hk
    unfold organizationFormInit
    cases instance_id with
    | none =>
      by_cases hr : (fields FieldName.replaced_by).isSome <;> simp [hr, hk]
    | some i =>
      by_cases hr : (fields FieldName.replaced_by).isSome <;> simp [hr, h, hk]
  · intro k hk1 hk2
    unfold organizationFormInit
    cases instance_id with
    | none =>
      by_cases hr : (fields FieldName.replaced_by).isSome <;> simp [hr, hk2]
    | some i =>
      by_cases hr : (fields FieldName.replaced_by).isSome <;>
        by_cases hp : (fields FieldName.parent).isSome <;>
          simp [hr, hp, hk1, hk2]

theorem organization_form_init_dynamic_fields_spec_witness :
    organizationFormInit ⟨[]⟩ none (fun _ => none) FieldName.name = none :=
  (organization_form_init_dynamic_fields_spec ⟨[]⟩ none (fun _ => none)).1
    rfl FieldName.name (by decide)

/-- Claim C5: `OrganizationAdmin.get_queryset` returns all organizations
for a superuser, and for a non-superuser exactly the organizations whose
admin-user set contains that user; in particular a non-superuser who is
a member of no organization's admin-user set gets an empty queryset. -/
theorem organization_admin_get_queryset_spec (db : Database) (user : AdminUser) :
    (user.is_superuser = true → get_queryset db user = db.orgs)
    ∧ (user.is_superuser = false →
        (∀ o : Organization,
           o ∈ get_queryset db user ↔ o ∈ db.orgs ∧ user.id ∈ o.admin_users)
        ∧ ((∀ o ∈ db.orgs, user.id ∉ o.admin_users) →
             get_queryset db user = [])) := by
  constructor
  · intro h
    simp [get_queryset, h]
  · intro h
    constructor
    · intro o
      simp [get_queryset, h, List.mem_filter]
    · intro hall
      simp only [get_queryset, h, if_neg Bool.false_ne_true]
      exact List.filter_eq_nil_iff.mpr (by simpa using hall)

theorem organization_admin_get_queryset_spec_witness :
    get_queryset ⟨[⟨1, InternalType.normal, none, none, []⟩]⟩ ⟨5, false, []⟩ = [] :=
  ((organization_admin_get_queryset_spec
      ⟨[⟨1, InternalType.normal, none, none, []⟩]⟩ ⟨5, false, []⟩).2 rfl).2
    (by decide)

/-- Claim C6: `OrganizationAdmin.has_change_permission` returns true for
a superuser; for a non-superuser it returns true exactly when the user
holds the distinct `change_affiliated_organization` framework permission
and, when a specific object is in context, that object is affiliated;
without the permission (and without superuser status) it returns
false. -/
theorem organization_admin_has_change_permission_spec (user : AdminUser)
    (obj : Option Organization) :
    (user.is_superuser = true → has_change_permission user obj = true)
    ∧ (user.is_superuser = false →
        (has_change_permission user obj = true ↔
          "change_affiliated_organization" ∈ user.perms ∧
            ∀ o : Organization, obj = some o →
              o.internal_type = InternalType.affiliated)) := by
  constructor
  · intro h
    simp [has_change_permission, h]
  · intro h
    cases obj with
    | none => simp [has_change_permission, hasPerm, h]
    | some o => simp [has_change_permission, hasPerm, h]

theorem organization_admin_has_change_permission_spec_witness :
    has_change_permission ⟨3, false, ["change_affiliated_organization"]⟩ none = true :=
  ((organization_admin_has_change_permission_spec
      ⟨3, false, ["change_affiliated_organization"]⟩ none).2 rfl).mpr
    ⟨by simp, fun o h => Option.noConfusion h⟩

/-- Claim C7 counterexample: for a concrete non-superuser without the
`change_organization` permission, the read-only field set returned with
no object in context is strictly smaller than the one returned with an
existing object — it does not even contain the object-call's
`data_source` entry — refuting the claim that the no-object set is the
broader one. -/
theorem get_readonly_fields_not_broader_without_obj :
    (get_readonly_fields ⟨7, false, []⟩ none).length <
        (get_readonly_fields ⟨7, false, []⟩
          (some ⟨1, InternalType.normal, none, none, []⟩)).length
    ∧ "data_source" ∈ get_readonly_fields ⟨7, false, []⟩
        (some ⟨1, InternalType.normal, none, none, []⟩)
    ∧ "data_source" ∉ get_readonly_fields ⟨7, false, []⟩ none := by
  refine ⟨by decide, by decide, by decide⟩

/-- Claim C7 (amended): `get_readonly_fields` returns the broader
read-only set — all of the form's base fields — when called with an
existing object for a user lacking the model-wide `change_organization`
permission, and the narrower default read-only set when called with no
object; a user holding that permission gets the default read-only set in
both cases. -/
theorem get_readonly_fields_amended_spec (user : AdminUser) (o : Organization) :
    (hasPerm user "change_organization" = false →
       get_readonly_fields user (some o) = organizationFormBaseFields
       ∧ get_readonly_fields user none = organizationAdminReadonlyFields
       ∧ (get_readonly_fields user none).length <
           (get_readonly_fields user (some o)).length)
    ∧ (hasPerm user "change_organization" = true →
       get_readonly_fields user (some o) = organizationAdminReadonlyFields
       ∧ get_readonly_fields user none = organizationAdminReadonlyFields) := by
  constructor
  · intro h
    refine ⟨by simp [get_readonly_fields, h], rfl, ?_⟩
    simp [get_readonly_fields, h, organizationAdminReadonlyFields,
      organizationFormBaseFields]
  · intro h
    exact ⟨by simp [get_readonly_fields, h], rfl⟩

theorem get_readonly_fields_amended_spec_witness :
    get_readonly_fields ⟨7, false, []⟩
        (some ⟨1, InternalType.normal, none, none, []⟩)
      = organizationFormBaseFields :=
  ((get_readonly_fields_amended_spec ⟨7, false, []⟩
      ⟨1, InternalType.normal, none, none, []⟩).1 rfl).1

/-- Claim C8: `OrganizationAdmin.save_model` sets `last_modified_by` to
the acting user on every save, while `created_by` is set to the acting
user only on the first save and is preserved by every later save, even
one performed by a different user. -/
theorem organization_admin_save_model_spec (u1 u2 : Nat)
    (obj : TrackedOrganization) (h : obj.created_by = none) :
    (save_model u1 obj).created_by = some u1
    ∧ (save_model u1 obj).last_modified_by = some u1
    ∧ (save_model u2 (save_model u1 obj)).created_by = some u1
    ∧ (save_model u2 (save_model u1 obj)).last_modified_by = some u2
    ∧ (∀ (u : Nat) (p : TrackedOrganization),
         (save_model u p).last_modified_by = some u)
    ∧ (∀ (u c : Nat) (p : TrackedOrganization), p.created_by = some c →
         (save_model u p).created_by = some c) := by
  refine ⟨?_, rfl, ?_, rfl, fun u p => rfl, ?_⟩
  · simp [save_model, h]
  · simp [save_model, h]
  · intro u c p hp
    simp [save_model, hp]

theorem organization_admin_save_model_spec_witness :
    (save_model 2 (save_model 1 ⟨none, none⟩)).last_modified_by = some 2 :=
  (organization_admin_save_model_spec 1 2 ⟨none, none⟩ rfl).2.2.2.1

end OrgHierarchy
